import Mathlib

/-
Verification of the Madison PD arrest-extraction and classification pipeline
(src/automation/newsletter.py). Strings are modelled as lists of characters;
Python's `re` backtracking semantics are embedded by a small engine restricted
to the constructs the source pattern uses (character classes, bounded and
unbounded greedy/lazy repetition of a class, groups, concatenation).
Character classes use the ASCII fragment, which covers all inputs considered.
-/

abbrev Str := List Char

/-- Python `\s` (ASCII fragment): space, tab, newline, carriage return,
vertical tab, form feed. -/
def isPySpace (c : Char) : Bool :=
  c == ' ' || c == '\t' || c == '\n' || c == '\r' || c == '\x0b' || c == '\x0c'

/-- Python `\w` (ASCII fragment): letters, digits, underscore. -/
def isWordChar (c : Char) : Bool :=
  c.isAlpha || c.isDigit || c == '_'

/-- The character class `[A-Z\s]` of the source pattern. -/
def isUpperOrSpace (c : Char) : Bool :=
  c.isUpper || isPySpace c

/-- Python `.` without DOTALL: any character except newline. -/
def isNotNewline (c : Char) : Bool :=
  !(c == '\n')

/-- Does `h` start with `n`? (helper for substring containment). -/
def startsWithS : Str → Str → Bool
  | [], _ => true
  | _ :: _, [] => false
  | c :: n, d :: h => c == d && startsWithS n h

/-- Python's `n in h` substring test: `n` occurs contiguously in `h`. -/
def containsSub (n : Str) (h : Str) : Bool :=
  startsWithS n h ||
    match h with
    | [] => false
    | _ :: t => containsSub n t

/-- The mathematical substring relation, for stating properties. -/
def SubstrOf (n h : Str) : Prop := ∃ a b, h = a ++ n ++ b

/-- Regular expressions over the constructs the source pattern uses.
`rep p lo hi greedy` repeats the character class `p` between `lo` and `hi`
times (`none` = unbounded); `greedy` selects the backtracking priority. -/
inductive RE where
  | eps : RE
  | cls (p : Char → Bool) : RE
  | seq (a b : RE) : RE
  | rep (p : Char → Bool) (lo : Nat) (hi : Option Nat) (greedy : Bool) : RE
  | grp (i : Nat) (r : RE) : RE

abbrev Caps := List (Nat × Str)

/-- First success in a list of repetition counts (backtracking order). -/
def firstSome (f : Nat → Option Caps) : List Nat → Option Caps
  | [] => none
  | n :: ns =>
    match f n with
    | some r => some r
    | none => firstSome f ns

/-- Length of the maximal run of characters satisfying `p`. -/
def runLen (p : Char → Bool) (s : Str) : Nat :=
  (s.takeWhile p).length

/-- CPS backtracking matcher, faithful to Python `re` priority: a greedy
repetition tries larger counts first, a lazy one smaller counts first, and
the first path whose continuation succeeds yields the captures. -/
def reMatch : RE → Str → Caps → (Str → Caps → Option Caps) → Option Caps
  | .eps, s, caps, k => k s caps
  | .cls p, s, caps, k =>
    match s with
    | [] => none
    | c :: t => if p c then k t caps else none
  | .seq a b, s, caps, k =>
    reMatch a s caps (fun s1 c1 => reMatch b s1 c1 k)
  | .grp i r, s, caps, k =>
    reMatch r s caps (fun s1 c1 => k s1 (c1 ++ [(i, s.take (s.length - s1.length))]))
  | .rep p lo hi greedy, s, caps, k =>
    let m := runLen p s
    let hi2 := match hi with
      | none => m
      | some h => min m h
    if lo ≤ hi2 then
      firstSome (fun n => k (s.drop n) caps)
        (if greedy then (List.range (hi2 + 1 - lo)).map (fun j => hi2 - j)
         else (List.range (hi2 + 1 - lo)).map (fun j => lo + j))
    else none

/-- The source pattern `(\d{1,2}/\d{1,2})\s+([A-Z\s]+?)\s+(\w+)\s+(.+)`. -/
def arrestRE : RE :=
  .seq (.grp 1 (.seq (.rep Char.isDigit 1 (some 2) true)
                (.seq (.cls (· == '/')) (.rep Char.isDigit 1 (some 2) true))))
  (.seq (.rep isPySpace 1 none true)
  (.seq (.grp 2 (.rep isUpperOrSpace 1 none false))
  (.seq (.rep isPySpace 1 none true)
  (.seq (.grp 3 (.rep isWordChar 1 none true))
  (.seq (.rep isPySpace 1 none true)
        (.grp 4 (.rep isNotNewline 1 none true)))))))

/-- `re.match(arrestRE, line)` with `.groups()`: anchored at the start,
returning the four captures of the first match in priority order. -/
def pyMatch (line : Str) : Option (Str × Str × Str × Str) :=
  match reMatch arrestRE line [] (fun _ caps => some caps) with
  | none => none
  | some caps =>
    some ((List.lookup 1 caps).getD [], (List.lookup 2 caps).getD [],
          (List.lookup 3 caps).getD [], (List.lookup 4 caps).getD [])

/-- Python `str.strip()` (ASCII whitespace). -/
def pyStrip (s : Str) : Str :=
  ((s.dropWhile isPySpace).reverse.dropWhile isPySpace).reverse

/-- Python `str.lower()` (ASCII fragment). -/
def pyLower (s : Str) : Str := s.map Char.toLower

/-- Python `text.split('\n')`: split on every newline, keeping empty pieces. -/
def splitNL : Str → List Str
  | [] => [[]]
  | c :: t =>
    if c = '\n' then [] :: splitNL t
    else
      match splitNL t with
      | [] => [[c]]
      | l :: ls => (c :: l) :: ls

/-- One arrest record as appended by `parse_arrests_pdf`. -/
structure Arrest where
  date : Str
  name : Str
  city : Str
  charge : Str
deriving DecidableEq, Repr

/-- One page as delivered by the PDF extraction collaborator:
`extract_text()` may yield no text (`none`); the page may carry tabular
grids, which `parse_arrests_pdf` never reads. -/
structure Page where
  text : Option Str
  tables : List (List (List Str))
deriving DecidableEq, Repr

def hdrMadison : Str := "MADISON POLICE".toList
def hdrArrest : Str := "ARREST".toList

/-- Body of the per-line loop of `parse_arrests_pdf`: skip lines containing
a header marker, otherwise append the stripped groups of the first regex
match (if any) to the accumulator. -/
def processLine (acc : List Arrest) (line : Str) : List Arrest :=
  if containsSub hdrMadison line || containsSub hdrArrest line then acc
  else
    match pyMatch line with
    | some (d, n, c, ch) => acc ++ [⟨pyStrip d, pyStrip n, pyStrip c, pyStrip ch⟩]
    | none => acc

/-- The page loop of `parse_arrests_pdf`. A page whose text is absent makes
`text.split('\n')` raise `AttributeError`, which the surrounding
`try/except` catches: the records accumulated so far are returned and no
further page is processed. -/
def parsePages : List Page → List Arrest → List Arrest
  | [], acc => acc
  | ⟨none, _⟩ :: _, acc => acc
  | ⟨some t, _⟩ :: rest, acc => parsePages rest ((splitNL t).foldl processLine acc)

/-- `MadisonDataScraper.parse_arrests_pdf`, over the page sequence the PDF
library delivers. -/
def parse_arrests_pdf (pages : List Page) : List Arrest :=
  parsePages pages []

/-- Keyword list for violent offenses (`MadisonDataScraper.categorize_crime`). -/
def violent_keywords : List Str :=
  ["assault", "battery", "domestic", "violence", "rape",
   "murder", "homicide", "robbery", "weapon"].map String.toList

/-- Keyword list for property offenses (`MadisonDataScraper.categorize_crime`). -/
def property_keywords : List Str :=
  ["theft", "burglary", "fraud", "forgery", "trespass",
   "vandalism", "arson", "shoplifting"].map String.toList

/-- `MadisonDataScraper.categorize_crime`: lower-case the charge, return
"violent" on any violent keyword, else "property" on any property keyword,
else "other". -/
def categorize_crime (charge_or_type : Str) : Str :=
  if violent_keywords.any (fun kw => containsSub kw (pyLower charge_or_type)) then
    "violent".toList
  else if property_keywords.any (fun kw => containsSub kw (pyLower charge_or_type)) then
    "property".toList
  else
    "other".toList

/-- One incident dict as built by `parse_incidents_pdf`. -/
structure Incident where
  raw : Str
  parsed : Bool
deriving DecidableEq, Repr

/-- An arrest record after `main` has set its `category` field. -/
structure CatArrest where
  date : Str
  name : Str
  city : Str
  charge : Str
  category : Str
deriving DecidableEq, Repr

/-- `total_incidents` as computed in `DashboardGenerator.analyze_crime_data`:
`len(incidents) if incidents else 12`. -/
def analyze_total_incidents (incidents : List Incident) : Nat :=
  if incidents.isEmpty then 12 else incidents.length

/-- `violent_count` in `analyze_crime_data`:
`sum(1 for a in arrests if 'violent' in a.get('category', ''))`. -/
def analyze_violent_count (arrests : List CatArrest) : Nat :=
  (arrests.filter (fun a => containsSub "violent".toList a.category)).length

/-- `DashboardGenerator.fallback_analysis`: the locally generated commentary
used when the external model call fails, with the violent count, the incident
total and the population spliced into fixed text. -/
def fallback_analysis (incidents violent : Nat) : Str :=
  "\nCARD 1: Safe to Walk Around\nZero stranger violence this week. All ".toList
  ++ (toString violent).toList
  ++ " violent incidents were domestic situations in private homes. No random attacks or public safety threats.\n\nCARD 2: No Crime Hot Spots  \nIncidents distributed across different areas with no single location experiencing repeat activity. No dangerous neighborhoods.\n\nCARD 3: Nothing Left Unresolved\nAll reported incidents resolved within 48 hours. Strong police response time with no active threats.\n\nCARD 4: Normal City Activity\nWith ".toList
  ++ (toString incidents).toList
  ++ " incidents for a population of 56,000, this is typical suburban activity. Most occurred in commercial areas.\n\nSUMMARY: Should you be worried? No. Madison shows low-level, isolated incidents with no concerning trends. This is what a safe, well-policed city looks like.\n".toList

/-- `DashboardGenerator.analyze_crime_data`. The external summarization call
is represented by its outcome `api`: `some t` models a successful call whose
response text is `t`; `none` models the call raising, which the `except`
branch turns into the local fallback commentary. -/
def analyze_crime_data (api : Option Str) (arrests : List CatArrest)
    (incidents : List Incident) : Str :=
  match api with
  | some t => t
  | none => fallback_analysis (analyze_total_incidents incidents) (analyze_violent_count arrests)

/-- The dict returned by `DashboardGenerator.calculate_stats`. -/
structure Stats where
  total_incidents : Nat
  total_arrests : Nat
  violent_crime : Nat
  property_crime : Nat
  change_percent : Str
deriving DecidableEq, Repr

/-- `DashboardGenerator.calculate_stats`: `len(...) or 12` / `len(...) or 5`
substitute hard-coded totals when a list is empty; the crime counts
re-categorize each arrest's charge. -/
def calculate_stats (arrests : List CatArrest) (incidents : List Incident) : Stats :=
  { total_incidents := if incidents.length = 0 then 12 else incidents.length
    total_arrests := if arrests.length = 0 then 5 else arrests.length
    violent_crime :=
      (arrests.filter (fun a => categorize_crime a.charge == "violent".toList)).length
    property_crime :=
      (arrests.filter (fun a => categorize_crime a.charge == "property".toList)).length
    change_percent := "8".toList }

/-- `startsWithS` agrees with "is an initial segment of". -/
lemma startsWithS_iff (n : Str) : ∀ h : Str, startsWithS n h = true ↔ ∃ b, h = n ++ b := by
  induction n with
  | nil =>
    intro h
    simp [startsWithS]
  | cons c n ih =>
    intro h
    cases h with
    | nil =>
      simp [startsWithS]
    | cons d h =>
      simp only [startsWithS, Bool.and_eq_true, beq_iff_eq, ih, List.cons_append,
        List.cons.injEq]
      constructor
      · rintro ⟨rfl, b, rfl⟩
        exact ⟨b, rfl, rfl⟩
      · rintro ⟨b, rfl, rfl⟩
        exact ⟨rfl, b, rfl⟩

/-- `containsSub` agrees with the substring relation. -/
lemma containsSub_iff (n : Str) : ∀ h : Str, containsSub n h = true ↔ SubstrOf n h := by
  intro h
  induction h with
  | nil =>
    simp only [containsSub, Bool.or_false, startsWithS_iff, SubstrOf]
    constructor
    · rintro ⟨b, hb⟩
      exact ⟨[], b, hb⟩
    · rintro ⟨a, b, hab⟩
      have ha : a = [] ∧ n ++ b = [] := by
        have := hab.symm
        rwa [List.append_assoc, List.append_eq_nil] at this
      exact ⟨b, by rw [ha.1] at hab; exact hab⟩
  | cons d t ih =>
    simp only [containsSub, Bool.or_eq_true, startsWithS_iff, ih, SubstrOf]
    constructor
    · rintro (⟨b, hb⟩ | ⟨a, b, hab⟩)
      · exact ⟨[], b, hb⟩
      · exact ⟨d :: a, b, by rw [hab]; rfl⟩
    · rintro ⟨a, b, hab⟩
      cases a with
      | nil => exact Or.inl ⟨b, hab⟩
      | cons x a =>
        right
        have := hab
        simp only [List.cons_append, List.cons.injEq] at this
        exact ⟨a, b, this.2⟩

/-- A keyword list hits a haystack iff one of its elements is a substring. -/
lemma any_containsSub_iff (l : List Str) (h : Str) :
    (l.any (fun kw => containsSub kw h) = true) ↔ ∃ kw ∈ l, SubstrOf kw h := by
  simp only [List.any_eq_true, containsSub_iff]

/-- Python's split never returns an empty list of pieces. -/
lemma splitNL_ne_nil : ∀ s : Str, splitNL s ≠ []
  | [] => by simp [splitNL]
  | c :: t => by
    by_cases hc : c = '\n'
    · simp [splitNL, hc]
    · simp only [splitNL, if_neg hc]
      cases splitNL t <;> simp

/-- Splitting across an explicit newline splits each side independently. -/
lemma splitNL_append (a b : Str) : splitNL (a ++ '\n' :: b) = splitNL a ++ splitNL b := by
  induction a with
  | nil => simp [splitNL]
  | cons c t ih =>
    by_cases hc : c = '\n'
    · simp [splitNL, hc, ih]
    · have h1 : splitNL ((c :: t) ++ '\n' :: b) =
          match splitNL (t ++ '\n' :: b) with
          | [] => [[c]]
          | l :: ls => (c :: l) :: ls := by
        simp [splitNL, hc]
      rw [h1, ih]
      cases e : splitNL t with
      | nil => exact absurd e (splitNL_ne_nil t)
      | cons l ls => simp [splitNL, hc, e]

/-- A newline-free string splits into itself alone. -/
lemma splitNL_no_nl : ∀ ℓ : Str, '\n' ∉ ℓ → splitNL ℓ = [ℓ]
  | [], _ => rfl
  | c :: t, h => by
    have hc : ¬ c = '\n' := fun e => h (by rw [e]; exact List.mem_cons_self _ _)
    have ht : '\n' ∉ t := fun m => h (List.mem_cons_of_mem c m)
    simp [splitNL, hc, splitNL_no_nl t ht]

/-- A single textual page is processed line by line from an empty accumulator. -/
lemma parse_single (t : Str) (tb : List (List (List Str))) :
    parse_arrests_pdf [⟨some t, tb⟩] = (splitNL t).foldl processLine [] := rfl

/-- A page without text ends the page loop: later pages never contribute. -/
lemma parsePages_append_none (rest : List Page) (tb : List (List (List Str))) :
    ∀ pre : List Page, ∀ acc : List Arrest,
      parsePages (pre ++ ⟨none, tb⟩ :: rest) acc = parsePages pre acc := by
  intro pre
  induction pre with
  | nil => intro acc; rfl
  | cons q pre ih =>
    intro acc
    obtain ⟨ot, qtb⟩ := q
    cases ot with
    | none => rfl
    | some t =>
      simp only [List.cons_append, parsePages]
      exact ih _

/-- The locally generated fallback commentary is never the empty string. -/
lemma fallback_ne_nil (incidents violent : Nat) : fallback_analysis incidents violent ≠ [] := by
  intro h
  unfold fallback_analysis at h
  have h1 := (List.append_eq_nil.mp (List.append_eq_nil.mp
    (List.append_eq_nil.mp (List.append_eq_nil.mp h).1).1).1).1
  have h2 : "\nCARD 1: Safe to Walk Around\nZero stranger violence this week. All ".toList ≠ ([] : Str) := by decide
  exact h2 h1

/-- C1 counterexample: a page whose text repeats the same matching line
yields two records with the same (date, name, charge) key — the extractor
performs no deduplication. -/
theorem c1_counterexample :
    ¬ ((parse_arrests_pdf [⟨some "1/1 AB c x\n1/1 AB c x".toList, []⟩]).map
        (fun r => (r.date, r.name, r.charge))).Nodup := by
  decide

/-- C1 (amended): no deduplication is performed: appending one more line to a
page's text appends that line's record (if any) to the previous output
unchanged, so later duplicates of an earlier (date, name, charge) key are
retained, in encounter order. -/
theorem c1_no_dedup (t ℓ : Str) (tb : List (List (List Str))) (h : '\n' ∉ ℓ) :
    parse_arrests_pdf [⟨some (t ++ '\n' :: ℓ), tb⟩]
      = processLine (parse_arrests_pdf [⟨some t, tb⟩]) ℓ := by
  rw [parse_single, parse_single, splitNL_append, splitNL_no_nl ℓ h, List.foldl_append]
  rfl

/-- Witness for C1: duplicating the matching line "1/1 AB c x" appends its
record to the singleton output of the first occurrence. -/
theorem c1_no_dedup_witness :
    parse_arrests_pdf [⟨some ("1/1 AB c x".toList ++ '\n' :: "1/1 AB c x".toList), []⟩]
      = processLine (parse_arrests_pdf [⟨some "1/1 AB c x".toList, []⟩]) "1/1 AB c x".toList :=
  c1_no_dedup _ _ _ (by decide)

/-- C2 counterexample: a page carrying a tabular grid whose row qualifies
(leading date, four cells) produces no record at all — the extractor never
reads tables. -/
theorem c2_counterexample :
    (⟨"3/14".toList, "JOHN DOE".toList, "Madison".toList, "Theft of Property".toList⟩ : Arrest)
      ∉ parse_arrests_pdf
        [⟨some "".toList,
          [[["3/14".toList, "JOHN DOE".toList, "Madison".toList, "Theft of Property".toList]]]⟩] := by
  decide

/-- C2 (amended): tabular grids are ignored wholesale: the output depends
only on each page's text, so erasing every table leaves it unchanged and no
table row ever produces a record. -/
theorem c2_tables_ignored (pages : List Page) :
    parse_arrests_pdf (pages.map (fun p => ⟨p.text, []⟩)) = parse_arrests_pdf pages := by
  suffices h : ∀ ps : List Page, ∀ acc : List Arrest,
      parsePages (ps.map (fun p => ⟨p.text, []⟩)) acc = parsePages ps acc from h pages []
  intro ps
  induction ps with
  | nil => intro acc; rfl
  | cons q ps ih =>
    intro acc
    obtain ⟨ot, tb⟩ := q
    cases ot with
    | none => rfl
    | some t =>
      simp only [List.map_cons, parsePages]
      exact ih _

/-- C3 counterexample: the record claimed for the example line (name
"JOHN DOE", city "Madison", charge "Theft of Property") is not produced. -/
theorem c3_counterexample :
    (⟨"3/14".toList, "JOHN DOE".toList, "Madison".toList, "Theft of Property".toList⟩ : Arrest)
      ∉ parse_arrests_pdf [⟨some "3/14 JOHN DOE Madison Theft of Property".toList, []⟩] := by
  decide

/-- C3 (amended): on "3/14 JOHN DOE Madison Theft of Property" the lazy name
group stops at the first whitespace boundary, so the produced record is
date "3/14", name "JOHN", city "DOE", charge "Madison Theft of Property". -/
theorem c3_line_example :
    parse_arrests_pdf [⟨some "3/14 JOHN DOE Madison Theft of Property".toList, []⟩]
      = [⟨"3/14".toList, "JOHN".toList, "DOE".toList, "Madison Theft of Property".toList⟩] := by
  decide

/-- C4 counterexample: "3/14 SMITH" produces no record at all, not the
claimed record with defaulted city "Madison" and charge "Unknown". -/
theorem c4_counterexample :
    (⟨"3/14".toList, "SMITH".toList, "Madison".toList, "Unknown".toList⟩ : Arrest)
      ∉ parse_arrests_pdf [⟨some "3/14 SMITH".toList, []⟩] := by
  decide

/-- C4 (amended): there is no fallback pattern: a line on which the single
extraction regex fails contributes no record. -/
theorem c4_no_fallback (acc : List Arrest) (ℓ : Str) (h : pyMatch ℓ = none) :
    processLine acc ℓ = acc := by
  unfold processLine
  rw [h]
  split <;> rfl

/-- Witness for C4: the date-only line "3/14 SMITH" fails the regex and
contributes nothing. -/
theorem c4_no_fallback_witness :
    processLine [] "3/14 SMITH".toList = [] :=
  c4_no_fallback [] _ (by decide)

/-- C5 counterexample: a line containing lower-case "arrest" — a header
marker under case-insensitive matching — is not skipped and produces a
record. -/
theorem c5_counterexample :
    parse_arrests_pdf [⟨some "3/14 AB c arrest theft".toList, []⟩]
      = [⟨"3/14".toList, "AB".toList, "c".toList, "arrest theft".toList⟩] := by
  decide

/-- C5 (amended): header markers are matched case-sensitively: a line
containing the exact substring "MADISON POLICE" or "ARREST", and any blank
line, contributes no record; lower-case marker variants are not skipped by
the header check. -/
theorem c5_header_skip (acc : List Arrest) (ℓ : Str)
    (h : SubstrOf hdrMadison ℓ ∨ SubstrOf hdrArrest ℓ ∨ ℓ = []) :
    processLine acc ℓ = acc := by
  rcases h with h | h | h
  · have hc : containsSub hdrMadison ℓ = true := (containsSub_iff _ _).mpr h
    simp [processLine, hc]
  · have hc : containsSub hdrArrest ℓ = true := (containsSub_iff _ _).mpr h
    simp [processLine, hc]
  · subst h; rfl

/-- Witness for C5: the header line "MADISON POLICE ARREST LOG" produces no
record. -/
theorem c5_header_skip_witness :
    processLine [] "MADISON POLICE ARREST LOG".toList = [] :=
  c5_header_skip [] _ (Or.inl ⟨[], " ARREST LOG".toList, by decide⟩)

/-- C6 counterexample: a parseable page alone yields its record, but placing
a text-less page before it yields nothing — extraction of the remaining
pages does not proceed past the failing page. -/
theorem c6_counterexample :
    parse_arrests_pdf [⟨some "1/1 AB c x".toList, []⟩]
        = [⟨"1/1".toList, "AB".toList, "c".toList, "x".toList⟩] ∧
    parse_arrests_pdf [⟨none, []⟩, ⟨some "1/1 AB c x".toList, []⟩] = [] :=
  ⟨by decide, by decide⟩

/-- C6 (amended): the extractor returns normally, but a page whose text is
absent ends extraction: the records accumulated from the pages before it are
returned and every later page is skipped. -/
theorem c6_null_aborts (pre : List Page) (p : Page) (rest : List Page)
    (h : p.text = none) :
    parse_arrests_pdf (pre ++ p :: rest) = parse_arrests_pdf pre := by
  obtain ⟨ot, tb⟩ := p
  cases ot with
  | some t => exact Option.noConfusion h
  | none => exact parsePages_append_none rest tb pre []

/-- Witness for C6: a text-less first page hides the parseable page after
it. -/
theorem c6_null_aborts_witness :
    parse_arrests_pdf ([] ++ (⟨none, []⟩ : Page) :: [⟨some "1/1 AB c x".toList, []⟩])
      = parse_arrests_pdf [] :=
  c6_null_aborts [] ⟨none, []⟩ [⟨some "1/1 AB c x".toList, []⟩] rfl

/-- C7: `categorize_crime` returns "violent" for every charge containing a
violent keyword (even when a property keyword also appears), "property" when
no violent but some property keyword occurs, and "other" otherwise —
including for empty or whitespace-only input. -/
theorem c7_categorize (s : Str) :
    ((∃ kw ∈ violent_keywords, SubstrOf kw (pyLower s)) →
      categorize_crime s = "violent".toList) ∧
    ((¬ ∃ kw ∈ violent_keywords, SubstrOf kw (pyLower s)) →
      (∃ kw ∈ property_keywords, SubstrOf kw (pyLower s)) →
      categorize_crime s = "property".toList) ∧
    ((¬ ∃ kw ∈ violent_keywords, SubstrOf kw (pyLower s)) →
      (¬ ∃ kw ∈ property_keywords, SubstrOf kw (pyLower s)) →
      categorize_crime s = "other".toList) := by
  refine ⟨?_, ?_, ?_⟩
  · intro hv
    have e : violent_keywords.any (fun kw => containsSub kw (pyLower s)) = true :=
      (any_containsSub_iff _ _).mpr hv
    simp [categorize_crime, e]
  · intro hnv hp
    have ev : violent_keywords.any (fun kw => containsSub kw (pyLower s)) = false := by
      cases e : violent_keywords.any (fun kw => containsSub kw (pyLower s)) with
      | false => rfl
      | true => exact absurd ((any_containsSub_iff _ _).mp e) hnv
    have ep : property_keywords.any (fun kw => containsSub kw (pyLower s)) = true :=
      (any_containsSub_iff _ _).mpr hp
    simp [categorize_crime, ev, ep]
  · intro hnv hnp
    have ev : violent_keywords.any (fun kw => containsSub kw (pyLower s)) = false := by
      cases e : violent_keywords.any (fun kw => containsSub kw (pyLower s)) with
      | false => rfl
      | true => exact absurd ((any_containsSub_iff _ _).mp e) hnv
    have ep : property_keywords.any (fun kw => containsSub kw (pyLower s)) = false := by
      cases e : property_keywords.any (fun kw => containsSub kw (pyLower s)) with
      | false => rfl
      | true => exact absurd ((any_containsSub_iff _ _).mp e) hnp
    simp [categorize_crime, ev, ep]

/-- Witness for C7: "domestic assault and theft" holds both a violent and a
property keyword and is classified "violent"; the empty charge is "other". -/
theorem c7_categorize_witness :
    categorize_crime "domestic assault and theft".toList = "violent".toList ∧
    categorize_crime [] = "other".toList := by
  constructor
  · exact (c7_categorize _).1
      ⟨"domestic".toList, by decide, [], " assault and theft".toList, by decide⟩
  · refine (c7_categorize []).2.2 ?_ ?_
    · rintro ⟨kw, hkw, a, b, hab⟩
      have h0 : a ++ kw ++ b = ([] : Str) := hab.symm
      have hk : kw = [] := (List.append_eq_nil.mp (List.append_eq_nil.mp h0).1).2
      subst hk
      exact absurd hkw (by decide)
    · rintro ⟨kw, hkw, a, b, hab⟩
      have h0 : a ++ kw ++ b = ([] : Str) := hab.symm
      have hk : kw = [] := (List.append_eq_nil.mp (List.append_eq_nil.mp h0).1).2
      subst hk
      exact absurd hkw (by decide)

/-- C9: when the external summarization call fails, `analyze_crime_data`
returns the locally generated fallback commentary determined by the incident
total and the violent count, and that output is never empty — the failure is
absorbed instead of aborting the pipeline. -/
theorem c9_fallback (a : List CatArrest) (i : List Incident) :
    analyze_crime_data none a i
        = fallback_analysis (analyze_total_incidents i) (analyze_violent_count a) ∧
    analyze_crime_data none a i ≠ [] :=
  ⟨rfl, fallback_ne_nil _ _⟩

/-- Witness for C9 on empty inputs: the failed call yields the fallback with
the hard-coded incident total 12 and violent count 0. -/
theorem c9_fallback_witness :
    analyze_crime_data none [] [] = fallback_analysis 12 0 ∧
    analyze_crime_data none [] [] ≠ [] :=
  ⟨(c9_fallback [] []).1, (c9_fallback [] []).2⟩

/-- C10: `calculate_stats` substitutes the hard-coded totals 12 and 5 when
the incident or arrest list is empty, `analyze_crime_data` likewise uses 12
for a missing incident list, and the reported totals are never 0. -/
theorem c10_stats (a : List CatArrest) (i : List Incident) :
    (i = [] → (calculate_stats a i).total_incidents = 12) ∧
    (a = [] → (calculate_stats a i).total_arrests = 5) ∧
    (i = [] → analyze_total_incidents i = 12) ∧
    (calculate_stats a i).total_incidents ≠ 0 ∧
    (calculate_stats a i).total_arrests ≠ 0 := by
  refine ⟨?_, ?_, ?_, ?_, ?_⟩
  · rintro rfl; rfl
  · rintro rfl; rfl
  · rintro rfl; rfl
  · simp only [calculate_stats]
    by_cases h : i.length = 0
    · simp [h]
    · simp [h]
  · simp only [calculate_stats]
    by_cases h : a.length = 0
    · simp [h]
    · simp [h]

/-- Witness for C10: on empty inputs the reported totals are 12 and 5. -/
theorem c10_stats_witness :
    (calculate_stats [] []).total_incidents = 12 ∧
    (calculate_stats [] []).total_arrests = 5 :=
  ⟨(c10_stats [] []).1 rfl, (c10_stats [] []).2.1 rfl⟩

/-- C8 counterexample: a line whose leading date carries a year produces no
record, although the claim says it still qualifies. -/
theorem c8_counterexample :
    parse_arrests_pdf [⟨some "3/14/2024 JOHN DOE Madison Theft of Property".toList, []⟩]
      = [] := by
  decide

/-- C8 (amended): a leading date with a trailing year component is rejected:
the pattern requires one or two digits, a slash, one or two digits, then
whitespace, so the example line fails the match entirely. -/
theorem c8_year_rejected :
    pyMatch "3/14/2024 JOHN DOE Madison Theft of Property".toList = none := by
  decide

/-- Witness for C2: erasing the example page's table leaves the (empty)
output unchanged. -/
theorem c2_tables_ignored_witness :
    parse_arrests_pdf
        (([⟨some "".toList, [[["3/14".toList, "JOHN DOE".toList, "Madison".toList,
            "Theft of Property".toList]]]⟩] : List Page).map (fun p => (⟨p.text, []⟩ : Page)))
      = parse_arrests_pdf [⟨some "".toList, [[["3/14".toList, "JOHN DOE".toList,
          "Madison".toList, "Theft of Property".toList]]]⟩] :=
  c2_tables_ignored _
